import Mathlib

/-!
Shallow embedding of `src/main.rs` from the ffmpeg-cpal-play-audio repository,
together with theorems settling the specification claims about it.

The program decodes audio with ffmpeg, resamples it, and plays it through cpal.
Pure functions of the source become Lean functions; the panicking sample-format
adapter and the panicking frame-layout reader return a `PanicOr` value whose
`panic` constructor models a Rust `panic!`; errors propagated with `?` become
`Except`.  The bounded single-producer/single-consumer sample queue comes from
the external `ringbuf` crate, whose code is not part of this repository; its
observable behaviour is modelled from the specification (section 4.4) as a
capacity-bounded FIFO list.  Machine integers that matter here are sample and
channel counts, all far below any overflow boundary, so they are embedded as
`Nat`.
-/

namespace PlayAudio

/-- The output sample formats of `cpal::SampleFormat` matched in the source. -/
inductive SampleFormat
| I16
| U16
| F32
deriving DecidableEq, Repr

/-- The packed/planar tag of `ffmpeg::format::sample::Type`. -/
inductive SampleType
| Packed
| Planar
deriving DecidableEq, Repr

/-- The subset of `ffmpeg::format::Sample` descriptors this program produces;
`other` stands for every remaining ffmpeg sample format. -/
inductive FFmpegSample
| I16 (t : SampleType)
| F32 (t : SampleType)
| other
deriving DecidableEq, Repr

/-- Result of a computation that may `panic!` in Rust.  A panic is a fatal
programming error, distinct from an `Except` error that propagates with `?`. -/
inductive PanicOr (α : Type)
| panic (msg : String)
| ok (a : α)
deriving DecidableEq, Repr

/-- `SampleFormatConversion::as_ffmpeg_sample` (main.rs lines 16-26): maps the
cpal sample format to the ffmpeg packed descriptor, panicking on `U16`. -/
def as_ffmpeg_sample : SampleFormat → PanicOr FFmpegSample
| SampleFormat.I16 => PanicOr.ok (FFmpegSample.I16 SampleType.Packed)
| SampleFormat.U16 => PanicOr.panic ("ffmpeg resampler does not support u16")
| SampleFormat.F32 => PanicOr.ok (FFmpegSample.F32 SampleType.Packed)

/-- Modelled from the spec: the bounded sample queue of section 4.4, realised in
the source by `ringbuf::RingBuffer` (main.rs line 102), an external crate whose
code is not in this repository.  `buf` lists the unread samples oldest first;
`capacity` is the fixed bound chosen at construction. -/
structure RingBuffer (α : Type) where
  capacity : Nat
  buf : List α
deriving DecidableEq, Repr

/-- `RingBuffer::new(capacity)`: an empty queue with the given fixed capacity. -/
def RingBuffer.new (α : Type) (capacity : Nat) : RingBuffer α :=
  ⟨capacity, []⟩

/-- Modelled from the spec: `Producer::remaining()`, the number of free slots. -/
def RingBuffer.remaining (q : RingBuffer α) : Nat :=
  q.capacity - q.buf.length

/-- Modelled from the spec: `Producer::push_slice(xs)` appends as many leading
elements of `xs` as fit into the free space and returns how many it appended;
it never overwrites unread slots, accepting a partial write instead. -/
def RingBuffer.push_slice (q : RingBuffer α) (xs : List α) : RingBuffer α × Nat :=
  let n := min xs.length q.remaining
  (⟨q.capacity, q.buf ++ xs.take n⟩, n)

/-- Modelled from the spec: `Consumer::pop()` removes and returns the oldest
unread sample, or `none` when the queue is empty; it never blocks. -/
def RingBuffer.pop (q : RingBuffer α) : Option α × RingBuffer α :=
  match q.buf with
  | [] => (none, q)
  | x :: rest => (some x, ⟨q.capacity, rest⟩)

/-- A decoded or resampled ffmpeg audio frame as the source observes it:
`format`, `channels`, `samples` and `is_packed` are the metadata accessors,
and `data` is the first data plane viewed at element type `τ`, covering the
whole allocated extent (which may exceed the populated `samples * channels`
elements). -/
structure AudioFrame (τ : Type) where
  format : FFmpegSample
  channels : Nat
  samples : Nat
  is_packed : Bool
  data : List τ
deriving DecidableEq, Repr

/-- The part of the `ffmpeg::frame::audio::Sample` trait the source uses: the
`is_valid` check that the frame format and channel count suit element type
`τ`.  The trait implementations live in the external ffmpeg crate, so the
predicate is kept abstract and quantified over in the theorems. -/
structure SampleElem (τ : Type) where
  is_valid : FFmpegSample → Nat → Bool

/-- `packed` (main.rs lines 57-67): expose the frame data as a flat slice of
`τ`.  Panics when the frame is not packed or when `is_valid` rejects the
format/channel pair; otherwise the view is the first
`frame.samples * frame.channels` elements of the data plane, exactly what
`slice::from_raw_parts` with that length reads. -/
def packed (ev : SampleElem τ) (frame : AudioFrame τ) : PanicOr (List τ) :=
  if !frame.is_packed then
    PanicOr.panic ("data is not packed")
  else if !(ev.is_valid frame.format frame.channels) then
    PanicOr.panic ("unsupported type")
  else
    PanicOr.ok (frame.data.take (frame.samples * frame.channels))

/-- `write_audio` (main.rs lines 28-37): fill an output buffer of `n` slots,
popping one sample per slot and writing `silence` (the value
`Sample::from(&0.0)` of the element type; `0.0` for `f32`) when the pop comes
back empty.  Returns the written buffer and the drained queue. -/
def write_audio (silence : τ) : Nat → RingBuffer τ → List τ × RingBuffer τ
| 0, q => ([], q)
| n + 1, q =>
  match q.pop with
  | (some s, q1) =>
    let r := write_audio silence n q1
    (s :: r.1, r.2)
  | (none, q1) =>
    let r := write_audio silence n q1
    (silence :: r.1, r.2)

/-- One interaction with the shared queue: the producer thread pushing a whole
frame view with `push_slice`, or the consumer callback popping one sample. -/
inductive QEvent (α : Type)
| push (xs : List α)
| pop
deriving DecidableEq, Repr

/-- Effect of one queue event: the new queue and the samples the consumer
obtained during the event (empty for a push, at most one for a pop). -/
def qstep (q : RingBuffer α) : QEvent α → RingBuffer α × List α
| QEvent.push xs => ((q.push_slice xs).1, [])
| QEvent.pop =>
  match q.pop with
  | (some s, q1) => (q1, [s])
  | (none, q1) => (q1, [])

/-- Run a whole interleaving of producer and consumer events, returning the
final queue and the samples popped, in pop order. -/
def runTrace (q : RingBuffer α) : List (QEvent α) → RingBuffer α × List α
| [] => (q, [])
| e :: tr =>
  let s := qstep q e
  let r := runTrace s.1 tr
  (r.1, s.2 ++ r.2)

/-- The producer-wait contract of the backpressure loop (main.rs lines 131-135):
every push happens only once the remaining capacity is at least the length of
the pushed view.  This is exactly the exit condition of the sleep loop. -/
def contractB (q : RingBuffer α) : List (QEvent α) → Bool
| [] => true
| QEvent.push xs :: tr =>
  decide (xs.length ≤ q.remaining) && contractB (q.push_slice xs).1 tr
| QEvent.pop :: tr => contractB (q.pop).2 tr

/-- Concatenation, in push order, of all the sequences a trace pushes. -/
def pushedConcat : List (QEvent α) → List α
| [] => []
| QEvent.push xs :: tr => xs ++ pushedConcat tr
| QEvent.pop :: tr => pushedConcat tr

/-- `k` consumer pop attempts in a row (what the callback does to the queue
while the producer sleeps in the backpressure loop); returns the drained queue
and the samples obtained, oldest first. -/
def drainN (q : RingBuffer α) : Nat → RingBuffer α × List α
| 0 => (q, [])
| k + 1 =>
  match q.pop with
  | (some s, q1) =>
    let r := drainN q1 k
    (r.1, s :: r.2)
  | (none, _) => drainN q k

/-- Modelled ffmpeg error payload carried by `Except` results (`ffmpeg::Error`
is an external enum; only its identity matters here). -/
inductive FFmpegError
| code (n : Nat)
deriving DecidableEq, Repr

/-- Outcome of the decode-and-queue pipeline: normal completion, a propagated
`Except` error (the `?` operator), a Rust panic, or the producer still blocked
in the backpressure loop because the consumer freed too little space.  `q` is
the queue at that point and `popped` every sample the consumer drained. -/
inductive PipeResult (τ ε : Type)
| ok (q : RingBuffer τ) (popped : List τ)
| err (e : ε) (q : RingBuffer τ) (popped : List τ)
| panicked (msg : String)
| blocked (q : RingBuffer τ) (popped : List τ)
deriving DecidableEq, Repr

/-- `true` exactly on the `err` outcome, i.e. when an error propagated. -/
def PipeResult.isErr : PipeResult τ ε → Bool
| PipeResult.err _ _ _ => true
| _ => false

/-- `receive_and_queue_audio_frames` (main.rs lines 117-141).  `recv` is the
sequence of `decoder.receive_frame` outcomes the decoder produces for this
packet; the loop runs while they are `ok` and stops, returning `Ok(())`, at the
first non-`ok` result (line 122) — an `Err` from `receive_frame` is not
propagated.  Each decoded frame goes through `resampler_run` (errors propagate
with `?`, line 125), then through `packed` (line 129, panics are fatal), then
the producer waits until the view fits (lines 133-135; `drains` gives, per
frame, how many pop attempts the consumer makes while the producer waits —
if the space is still short the producer is `blocked`) and pushes the whole
view with `push_slice` (line 138).  `acc` accumulates the samples the consumer
popped so far. -/
def receive_and_queue_audio_frames (ev : SampleElem τ)
    (resampler_run : AudioFrame τ → Except ε (AudioFrame τ)) :
    List (Except ε (AudioFrame τ)) → List Nat → RingBuffer τ → List τ →
    PipeResult τ ε
| [], _, q, acc => PipeResult.ok q acc
| Except.error _ :: _, _, q, acc => PipeResult.ok q acc
| Except.ok decoded :: rest, drains, q, acc =>
  match resampler_run decoded with
  | Except.error e => PipeResult.err e q acc
  | Except.ok resampled =>
    match packed ev resampled with
    | PanicOr.panic m => PipeResult.panicked m
    | PanicOr.ok both_channels =>
      let d := drainN q (drains.headD 0)
      if both_channels.length ≤ d.1.remaining then
        receive_and_queue_audio_frames ev resampler_run rest drains.tail
          (d.1.push_slice both_channels).1 (acc ++ d.2)
      else
        PipeResult.blocked d.1 (acc ++ d.2)

/-- The flat views, concatenated in decode order, of the frames the pipeline
enqueues for a given `receive_frame` outcome sequence (meaningful when the run
completes normally, where every resample and every `packed` call succeeds). -/
def frame_views (ev : SampleElem τ)
    (resampler_run : AudioFrame τ → Except ε (AudioFrame τ)) :
    List (Except ε (AudioFrame τ)) → List τ
| [] => []
| Except.error _ :: _ => []
| Except.ok decoded :: rest =>
  match resampler_run decoded with
  | Except.error _ => []
  | Except.ok resampled =>
    match packed ev resampled with
    | PanicOr.panic _ => []
    | PanicOr.ok v => v ++ frame_views ev resampler_run rest

/-- One packet of the container as the main loop (main.rs lines 147-157) sees
it: its stream index, the outcome of `send_packet`, the `receive_frame`
outcomes that follow, and the consumer drains per frame. -/
structure Packet (τ ε : Type) where
  stream_index : Nat
  send_result : Except ε Unit
  recv : List (Except ε (AudioFrame τ))
  drains : List Nat

/-- The main packet loop (main.rs lines 147-157): packets of other streams are
ignored; for audio packets `send_packet` errors propagate with `?` and then
`receive_and_queue_audio_frames` runs, its error/panic/blocked outcomes ending
the session. -/
def packet_loop (ev : SampleElem τ)
    (resampler_run : AudioFrame τ → Except ε (AudioFrame τ))
    (audio_stream_index : Nat) :
    List (Packet τ ε) → RingBuffer τ → List τ → PipeResult τ ε
| [], q, acc => PipeResult.ok q acc
| p :: rest, q, acc =>
  if p.stream_index = audio_stream_index then
    match p.send_result with
    | Except.error e => PipeResult.err e q acc
    | Except.ok _ =>
      match receive_and_queue_audio_frames ev resampler_run p.recv p.drains q acc with
      | PipeResult.ok q1 acc1 =>
        packet_loop ev resampler_run audio_stream_index rest q1 acc1
      | r => r
  else
    packet_loop ev resampler_run audio_stream_index rest q acc

/-- Where `main` (main.rs lines 69-159) halts, for the startup stages the
claims are about.  `panickedAtResampler` is the `as_ffmpeg_sample` panic inside
the `ResamplingContext::get` argument list (line 96); `resamplerError` is an
`Err` from `ResamplingContext::get` itself, propagated with `?` (line 99);
`panickedAtStreamBuild` is a panic in the `build_output_stream` match (lines
113-114); `playing` reaches `audio_stream.play()` with the shared queue it
built. -/
inductive StartupResult (α : Type)
| panickedAtResampler (msg : String)
| resamplerError
| panickedAtStreamBuild (msg : String)
| playing (queue : RingBuffer α)

/-- The startup sequence of `main` after the file and decoder are opened
(main.rs lines 91-144), as a function of the device sample format and of
whether `ResamplingContext::get` succeeds (an external outcome).  The resampler
is configured first — evaluating `as_ffmpeg_sample`, which panics on `U16` —
then the `f32` ring buffer of capacity 8192 is created (line 102), then the
output stream is built, panicking for `I16` and `U16` (lines 113-114), and only
the `F32` arm constructs a playback stream. -/
def main_startup (fmt : SampleFormat) (resampler_ok : Bool) : StartupResult Float :=
  match as_ffmpeg_sample fmt with
  | PanicOr.panic msg => StartupResult.panickedAtResampler msg
  | PanicOr.ok _ =>
    if resampler_ok then
      match fmt with
      | SampleFormat.F32 => StartupResult.playing (RingBuffer.new Float 8192)
      | SampleFormat.I16 =>
        StartupResult.panickedAtStreamBuild ("i16 output format unimplemented")
      | SampleFormat.U16 =>
        StartupResult.panickedAtStreamBuild ("u16 output format unimplemented")
    else
      StartupResult.resamplerError

/-- `true` exactly when `main` halted inside the `build_output_stream` match. -/
def StartupResult.at_stream_build : StartupResult α → Bool
| StartupResult.panickedAtStreamBuild _ => true
| _ => false

/-- A push whose sequence fits in the free space appends the whole sequence. -/
theorem push_slice_full (q : RingBuffer α) (xs : List α)
    (h : xs.length ≤ q.remaining) :
    q.push_slice xs = (⟨q.capacity, q.buf ++ xs⟩, xs.length) := by
  simp [RingBuffer.push_slice, Nat.min_eq_left h]

/-- `k` pop attempts drop the first `k` unread samples and return them. -/
theorem drainN_spec (k : Nat) : ∀ (q : RingBuffer α),
    drainN q k = (⟨q.capacity, q.buf.drop k⟩, q.buf.take k) := by
  induction k with
  | zero => intro q; simp [drainN]
  | succ k ih =>
    intro q
    obtain ⟨cap, buf⟩ := q
    cases buf with
    | nil => simp [drainN, RingBuffer.pop, ih]
    | cons x rest => simp [drainN, RingBuffer.pop, ih]

/-- Conservation along any interleaving that respects the producer-wait
contract: the initial unread samples followed by everything pushed are exactly
the popped samples followed by the final unread samples. -/
theorem runTrace_conserve : ∀ (tr : List (QEvent α)) (q : RingBuffer α),
    contractB q tr = true →
    q.buf ++ pushedConcat tr = (runTrace q tr).2 ++ (runTrace q tr).1.buf := by
  intro tr
  induction tr with
  | nil => intro q _; simp [runTrace, pushedConcat]
  | cons e tr ih =>
    intro q h
    cases e with
    | push xs =>
      rw [contractB] at h
      rw [Bool.and_eq_true] at h
      have h1 : xs.length ≤ q.remaining := of_decide_eq_true h.1
      have hp := push_slice_full q xs h1
      have hrec := ih ((q.push_slice xs).1) h.2
      rw [hp] at hrec
      simp only [runTrace, qstep, pushedConcat, hp]
      simp only [List.nil_append]
      rw [← List.append_assoc]
      exact hrec
    | pop =>
      obtain ⟨cap, buf⟩ := q
      cases buf with
      | nil =>
        rw [contractB] at h
        simp only [RingBuffer.pop] at h
        have hrec := ih ⟨cap, []⟩ h
        simpa [runTrace, qstep, RingBuffer.pop, pushedConcat] using hrec
      | cons x rest =>
        rw [contractB] at h
        simp only [RingBuffer.pop] at h
        have hrec := ih ⟨cap, rest⟩ h
        simp only [runTrace, qstep, RingBuffer.pop, pushedConcat]
        simpa using congrArg (fun l => x :: l) hrec

/-- Full characterisation of the playback callback: the written buffer is the
oldest unread samples, padded with silence, and the queue loses exactly what
was written from it. -/
theorem write_audio_spec (silence : τ) : ∀ (n : Nat) (q : RingBuffer τ),
    write_audio silence n q =
      (q.buf.take n ++ List.replicate (n - q.buf.length) silence,
       ⟨q.capacity, q.buf.drop n⟩) := by
  intro n
  induction n with
  | zero => intro q; obtain ⟨cap, buf⟩ := q; simp [write_audio]
  | succ n ih =>
    intro q
    obtain ⟨cap, buf⟩ := q
    cases buf with
    | nil => simp [write_audio, RingBuffer.pop, ih, List.replicate_succ]
    | cons x rest => simp [write_audio, RingBuffer.pop, ih, List.replicate_succ]

/-- Conservation through the decode-and-queue pipeline: when a run completes
normally, the samples the consumer popped followed by the unread remainder are
exactly the previously popped samples, the initial queue content, and every
enqueued frame view, in order.  Nothing is overwritten, dropped or truncated. -/
theorem rq_conserve (ev : SampleElem τ)
    (rr : AudioFrame τ → Except ε (AudioFrame τ)) :
    ∀ (recv : List (Except ε (AudioFrame τ))) (drains : List Nat)
      (q : RingBuffer τ) (acc : List τ) (q1 : RingBuffer τ) (popped : List τ),
    receive_and_queue_audio_frames ev rr recv drains q acc =
      PipeResult.ok q1 popped →
    popped ++ q1.buf = acc ++ q.buf ++ frame_views ev rr recv := by
  intro recv
  induction recv with
  | nil =>
    intro drains q acc q1 popped h
    simp only [receive_and_queue_audio_frames, PipeResult.ok.injEq] at h
    obtain ⟨h1, h2⟩ := h
    subst h1; subst h2
    simp [frame_views]
  | cons hd rest ih =>
    intro drains q acc q1 popped h
    cases hd with
    | error e =>
      simp only [receive_and_queue_audio_frames, PipeResult.ok.injEq] at h
      obtain ⟨h1, h2⟩ := h
      subst h1; subst h2
      simp [frame_views]
    | ok decoded =>
      rw [receive_and_queue_audio_frames] at h
      cases hr : rr decoded with
      | error e2 =>
        rw [hr] at h
        simp at h
      | ok resampled =>
        rw [hr] at h
        simp only [] at h
        cases hp : packed ev resampled with
        | panic m =>
          rw [hp] at h
          simp at h
        | ok v =>
          rw [hp] at h
          simp only [drainN_spec] at h
          split at h
          case isTrue hfit =>
            have hrec := ih drains.tail _ _ q1 popped h
            simp only [push_slice_full _ v hfit] at hrec
            simp only [frame_views, hr, hp]
            simp only [List.append_assoc] at hrec ⊢
            rw [hrec]
            have htd : q.buf.take (drains.headD 0) ++ (q.buf.drop (drains.headD 0) ++ (v ++ frame_views ev rr rest)) = q.buf ++ (v ++ frame_views ev rr rest) := by
              rw [← List.append_assoc, List.take_append_drop]
            rw [htd]
          case isFalse hfit =>
            simp at h

/-- Concrete element-type evidence for `Int` samples: valid exactly for packed
f32 frames, mirroring the scalar trait instance the `f32` view relies on. -/
def ev0 : SampleElem Int :=
  ⟨fun f _ => f == FFmpegSample.F32 SampleType.Packed⟩

/-- A resampler stand-in that always succeeds, returning the frame unchanged. -/
def rr_id : AudioFrame Int → Except FFmpegError (AudioFrame Int) :=
  fun f => Except.ok f

/-- A resampler stand-in that always fails. -/
def rr_fail : AudioFrame Int → Except FFmpegError (AudioFrame Int) :=
  fun _ => Except.error (FFmpegError.code 7)

/-- A small packed two-channel frame with two samples per channel. -/
def frame0 : AudioFrame Int :=
  ⟨FFmpegSample.F32 SampleType.Packed, 2, 2, true, [5, 6, 7, 8]⟩

/-- The same frame with a planar (non-packed) layout flag. -/
def frame_planar : AudioFrame Int :=
  ⟨FFmpegSample.F32 SampleType.Packed, 2, 2, false, [5, 6, 7, 8]⟩

/-- A packed frame whose allocated data plane exceeds its populated extent. -/
def frame_big : AudioFrame Int :=
  ⟨FFmpegSample.F32 SampleType.Packed, 2, 2, true, [5, 6, 7, 8, 9, 10]⟩

/-- An empty `Int` queue of capacity 8. -/
def q8 : RingBuffer Int := RingBuffer.new Int 8

/-- C1: whenever a run of `receive_and_queue_audio_frames` — which sleeps in a
loop until the remaining capacity is at least the flat view length and only
then pushes the whole view in one `push_slice` call — completes normally, no
unread sample is overwritten and no partial frame is pushed: the samples the
consumer popped followed by the unread remainder equal the initial queue
content followed by every resampled frame view, whole and in order. -/
theorem claim1_no_overwrite_whole_frames (ev : SampleElem τ)
    (rr : AudioFrame τ → Except ε (AudioFrame τ))
    (recv : List (Except ε (AudioFrame τ))) (drains : List Nat)
    (q q1 : RingBuffer τ) (popped : List τ)
    (h : receive_and_queue_audio_frames ev rr recv drains q [] =
      PipeResult.ok q1 popped) :
    popped ++ q1.buf = q.buf ++ frame_views ev rr recv := by
  simpa using rq_conserve ev rr recv drains q [] q1 popped h

/-- Witness for C1 at a concrete frame: one packed frame of four samples is
pushed whole into an empty queue of capacity 10 and nothing is lost. -/
theorem claim1_witness :
    receive_and_queue_audio_frames ev0 rr_id [Except.ok frame0] [0]
        (RingBuffer.new Int 10) [] =
      PipeResult.ok ⟨10, [5, 6, 7, 8]⟩ []
    ∧ ([] : List Int) ++ (RingBuffer.mk 10 [5, 6, 7, 8]).buf =
      (RingBuffer.new Int 10).buf ++ frame_views ev0 rr_id [Except.ok frame0] :=
  ⟨by decide,
   claim1_no_overwrite_whole_frames ev0 rr_id [Except.ok frame0] [0]
     (RingBuffer.new Int 10) ⟨10, [5, 6, 7, 8]⟩ [] (by decide)⟩

/-- C2: for every interleaving of producer pushes and consumer pops that
respects the producer-wait contract, starting from the empty queue, the popped
samples followed by the unread remainder are exactly the concatenation of the
pushed sequences in push order, and the popped sequence itself is exactly the
corresponding prefix of that concatenation — FIFO, nothing reordered or
skipped. -/
theorem claim2_fifo_order (cap : Nat) (tr : List (QEvent α))
    (h : contractB (RingBuffer.new α cap) tr = true) :
    (runTrace (RingBuffer.new α cap) tr).2 ++
        (runTrace (RingBuffer.new α cap) tr).1.buf = pushedConcat tr
    ∧ (runTrace (RingBuffer.new α cap) tr).2 =
        (pushedConcat tr).take (runTrace (RingBuffer.new α cap) tr).2.length := by
  have hc := runTrace_conserve tr (RingBuffer.new α cap) h
  simp only [RingBuffer.new, List.nil_append] at hc
  refine ⟨hc.symm, ?_⟩
  rw [hc]
  exact (List.take_left _ _).symm

/-- Witness for C2 on a concrete interleaving of two pushes and four pops. -/
theorem claim2_witness :
    contractB (RingBuffer.new Int 3)
        [QEvent.push [1, 2], QEvent.pop, QEvent.push [3], QEvent.pop,
         QEvent.pop, QEvent.pop] = true
    ∧ ((runTrace (RingBuffer.new Int 3)
          [QEvent.push [1, 2], QEvent.pop, QEvent.push [3], QEvent.pop,
           QEvent.pop, QEvent.pop]).2 ++
        (runTrace (RingBuffer.new Int 3)
          [QEvent.push [1, 2], QEvent.pop, QEvent.push [3], QEvent.pop,
           QEvent.pop, QEvent.pop]).1.buf =
        pushedConcat
          [QEvent.push [1, 2], QEvent.pop, QEvent.push [3], QEvent.pop,
           QEvent.pop, QEvent.pop]
      ∧ (runTrace (RingBuffer.new Int 3)
          [QEvent.push [1, 2], QEvent.pop, QEvent.push [3], QEvent.pop,
           QEvent.pop, QEvent.pop]).2 =
        (pushedConcat
          [QEvent.push [1, 2], QEvent.pop, QEvent.push [3], QEvent.pop,
           QEvent.pop, QEvent.pop]).take
          (runTrace (RingBuffer.new Int 3)
            [QEvent.push [1, 2], QEvent.pop, QEvent.push [3], QEvent.pop,
             QEvent.pop, QEvent.pop]).2.length) :=
  ⟨by decide,
   claim2_fifo_order 3
     [QEvent.push [1, 2], QEvent.pop, QEvent.push [3], QEvent.pop,
      QEvent.pop, QEvent.pop] (by decide)⟩

/-- C3: the playback callback fills every slot of the device buffer — the
output has exactly the requested length, each slot holds the popped sample when
one was available and the silence value otherwise, and the queue loses exactly
the samples that were written; never a crash, a stale value, or an unwritten
slot. -/
theorem claim3_callback_pop_or_silence (silence : τ) (n : Nat)
    (q : RingBuffer τ) :
    (write_audio silence n q).1.length = n
    ∧ (write_audio silence n q).1 =
        q.buf.take n ++ List.replicate (n - q.buf.length) silence
    ∧ (write_audio silence n q).2.buf = q.buf.drop n := by
  rw [write_audio_spec]
  refine ⟨?_, rfl, rfl⟩
  simp only [List.length_append, List.length_take, List.length_replicate]
  omega

/-- C4: the flat view of a resampled frame whose allocation is at least its
populated extent has length exactly sample-count times channel-count, is the
corresponding prefix of the data plane (so nothing past the extent is read),
and is unchanged by however much extra allocated capacity follows — the extent
comes from the metadata, never from the buffer capacity. -/
theorem claim4_valid_extent (ev : SampleElem τ) (f : AudioFrame τ) (v : List τ)
    (extra : List τ) (h : packed ev f = PanicOr.ok v)
    (hcap : f.samples * f.channels ≤ f.data.length) :
    v.length = f.samples * f.channels
    ∧ v = f.data.take (f.samples * f.channels)
    ∧ packed ev
        (AudioFrame.mk f.format f.channels f.samples f.is_packed
          (f.data ++ extra)) = PanicOr.ok v := by
  have hp : f.is_packed = true ∧ ev.is_valid f.format f.channels = true
      ∧ v = f.data.take (f.samples * f.channels) := by
    unfold packed at h
    split_ifs at h with h1 h2
    cases h
    exact ⟨by simpa using h1, by simpa using h2, rfl⟩
  obtain ⟨h1, h2, hv⟩ := hp
  subst hv
  refine ⟨?_, rfl, ?_⟩
  · rw [List.length_take]
    exact Nat.min_eq_left hcap
  · simp [packed, h1, h2, List.take_append_of_le_length hcap]

/-- Witness for C4 on a frame allocated with two elements past its extent. -/
theorem claim4_witness :
    packed ev0 frame_big = PanicOr.ok [5, 6, 7, 8]
    ∧ frame_big.samples * frame_big.channels ≤ frame_big.data.length
    ∧ (([5, 6, 7, 8] : List Int).length = frame_big.samples * frame_big.channels
      ∧ ([5, 6, 7, 8] : List Int) =
          frame_big.data.take (frame_big.samples * frame_big.channels)
      ∧ packed ev0
          (AudioFrame.mk frame_big.format frame_big.channels frame_big.samples
            frame_big.is_packed (frame_big.data ++ [99])) =
          PanicOr.ok [5, 6, 7, 8]) :=
  ⟨by decide, by decide,
   claim4_valid_extent ev0 frame_big [5, 6, 7, 8] [99] (by decide) (by decide)⟩

/-- C5: the format adapter is a pure total map on the two supported kinds —
I16 to the packed 16-bit descriptor and F32 to the packed 32-bit float
descriptor — and panics deterministically on U16; in the startup sequence of
`main` that panic fires while the resampler is being configured, before any
stream is built or played, whatever the external resampler outcome would have
been. -/
theorem claim5_format_adapter :
    as_ffmpeg_sample SampleFormat.I16 =
      PanicOr.ok (FFmpegSample.I16 SampleType.Packed)
    ∧ as_ffmpeg_sample SampleFormat.F32 =
      PanicOr.ok (FFmpegSample.F32 SampleType.Packed)
    ∧ as_ffmpeg_sample SampleFormat.U16 =
      PanicOr.panic ("ffmpeg resampler does not support u16")
    ∧ main_startup SampleFormat.U16 true =
      StartupResult.panickedAtResampler ("ffmpeg resampler does not support u16")
    ∧ main_startup SampleFormat.U16 false =
      StartupResult.panickedAtResampler ("ffmpeg resampler does not support u16") :=
  ⟨rfl, rfl, rfl, rfl, rfl⟩

/-- C6 as stated is false at this input: a decoder error surfacing through
`receive_frame` does not abort the session — the frame loop treats it exactly
like running out of frames and returns a normal completion, not an error. -/
theorem claim6_counterexample :
    receive_and_queue_audio_frames ev0 rr_id
        [Except.error (FFmpegError.code 42)] [] q8 ([] : List Int) =
      PipeResult.ok q8 []
    ∧ (receive_and_queue_audio_frames ev0 rr_id
        [Except.error (FFmpegError.code 42)] [] q8 ([] : List Int)).isErr =
      false :=
  ⟨rfl, rfl⟩

/-- C6 amended: a resampler error aborts the session immediately, propagating
to the caller with no frame skipped, and a packet-submission error aborts the
packet loop the same way; but an error returned by `receive_frame` merely ends
the frame-retrieval loop with a normal completion — it is treated as
end-of-frames, not propagated. -/
theorem claim6_error_propagation (ev : SampleElem τ)
    (rr : AudioFrame τ → Except ε (AudioFrame τ)) (f : AudioFrame τ)
    (rest : List (Except ε (AudioFrame τ))) (drains : List Nat)
    (q : RingBuffer τ) (acc : List τ) (e : ε) (idx : Nat)
    (ps : List (Packet τ ε)) :
    (rr f = Except.error e →
      receive_and_queue_audio_frames ev rr (Except.ok f :: rest) drains q acc =
        PipeResult.err e q acc)
    ∧ receive_and_queue_audio_frames ev rr (Except.error e :: rest) drains q acc
        = PipeResult.ok q acc
    ∧ packet_loop ev rr idx (Packet.mk idx (Except.error e) rest drains :: ps)
        q acc = PipeResult.err e q acc := by
  refine ⟨?_, rfl, ?_⟩
  · intro he
    rw [receive_and_queue_audio_frames, he]
  · simp [packet_loop]

/-- Witness for C6 amended: a concrete failing resample aborts the run with
exactly that error. -/
theorem claim6_witness :
    rr_fail frame0 = Except.error (FFmpegError.code 7)
    ∧ receive_and_queue_audio_frames ev0 rr_fail [Except.ok frame0] [] q8 [] =
      PipeResult.err (FFmpegError.code 7) q8 [] :=
  ⟨rfl,
   (claim6_error_propagation ev0 rr_fail frame0 [] [] q8 []
     (FFmpegError.code 7) 0 []).1 rfl⟩

/-- C7: `packed` exposes the flat view exactly when the frame is packed and the
element-type validity check accepts its format and channel count; violating
either precondition yields a `PanicOr.panic` — the fatal-programming-error
outcome, distinct from the `Except` channel normal errors propagate on. -/
theorem claim7_packed_preconditions (ev : SampleElem τ) (f : AudioFrame τ) :
    (f.is_packed = true → ev.is_valid f.format f.channels = true →
      packed ev f = PanicOr.ok (f.data.take (f.samples * f.channels)))
    ∧ (f.is_packed = false →
      packed ev f = PanicOr.panic ("data is not packed"))
    ∧ (f.is_packed = true → ev.is_valid f.format f.channels = false →
      packed ev f = PanicOr.panic ("unsupported type")) := by
  refine ⟨?_, ?_, ?_⟩
  · intro h1 h2
    simp [packed, h1, h2]
  · intro h1
    simp [packed, h1]
  · intro h1 h2
    simp [packed, h1, h2]

/-- Witness for C7 at a planar frame: the layout precondition fails and the
operation panics rather than returning a view or a normal error. -/
theorem claim7_witness :
    frame_planar.is_packed = false
    ∧ packed ev0 frame_planar = PanicOr.panic ("data is not packed") :=
  ⟨rfl, (claim7_packed_preconditions ev0 frame_planar).2.1 rfl⟩

/-- C8: pushing a sequence that fits into the free space decreases the
remaining capacity by exactly its length (the push accepts every element), and
a pop never decreases the remaining capacity — concurrent pops can only
increase it. -/
theorem claim8_capacity_conservation (q : RingBuffer α) (xs : List α)
    (q2 : RingBuffer α) (h : xs.length ≤ q.remaining) :
    ((q.push_slice xs).1).remaining = q.remaining - xs.length
    ∧ (q.push_slice xs).2 = xs.length
    ∧ q2.remaining ≤ ((q2.pop).2).remaining := by
  refine ⟨?_, ?_, ?_⟩
  · simp only [push_slice_full q xs h, RingBuffer.remaining, List.length_append]
    omega
  · simp only [push_slice_full q xs h]
  · obtain ⟨cap, buf⟩ := q2
    cases buf with
    | nil => simp [RingBuffer.pop]
    | cons x rest =>
      simp only [RingBuffer.pop, RingBuffer.remaining, List.length_cons]
      omega

/-- Witness for C8: pushing two samples into a queue with one unread sample
and capacity four drops the remaining capacity from 3 to 1. -/
theorem claim8_witness :
    ([9, 9] : List Int).length ≤ (RingBuffer.mk 4 [1] : RingBuffer Int).remaining
    ∧ ((((RingBuffer.mk 4 [1] : RingBuffer Int).push_slice [9, 9]).1).remaining =
        (RingBuffer.mk 4 [1] : RingBuffer Int).remaining -
          ([9, 9] : List Int).length
      ∧ ((RingBuffer.mk 4 [1] : RingBuffer Int).push_slice [9, 9]).2 =
        ([9, 9] : List Int).length
      ∧ (RingBuffer.mk 4 [7, 8] : RingBuffer Int).remaining ≤
        (((RingBuffer.mk 4 [7, 8] : RingBuffer Int).pop).2).remaining) :=
  ⟨by decide,
   claim8_capacity_conservation (RingBuffer.mk 4 [1]) [9, 9]
     (RingBuffer.mk 4 [7, 8]) (by decide)⟩

/-- First frame of the end-to-end scenario: 3000 samples. -/
def frameA : List Int := List.replicate 3000 1

/-- Second frame of the end-to-end scenario: 2000 samples. -/
def frameB : List Int := List.replicate 2000 2

/-- Third frame of the end-to-end scenario: 4000 samples. -/
def frameC : List Int := List.replicate 4000 3

/-- The scenario queue as built in main.rs line 102: empty, capacity 8192. -/
def q9a : RingBuffer Int := RingBuffer.new Int 8192

/-- The scenario queue after the 3000-sample frame is pushed. -/
def q9b : RingBuffer Int := (q9a.push_slice frameA).1

/-- The scenario queue after the 2000-sample frame follows. -/
def q9c : RingBuffer Int := (q9b.push_slice frameB).1

/-- The first scenario frame holds 3000 samples. -/
theorem frameA_len : frameA.length = 3000 := by
  rw [frameA, List.length_replicate]

/-- The second scenario frame holds 2000 samples. -/
theorem frameB_len : frameB.length = 2000 := by
  rw [frameB, List.length_replicate]

/-- The third scenario frame holds 4000 samples. -/
theorem frameC_len : frameC.length = 4000 := by
  rw [frameC, List.length_replicate]

/-- The first scenario push fits entirely, leaving the 3000 samples unread. -/
theorem q9b_eq : q9b = ⟨8192, frameA⟩ := by
  have h : frameA.length ≤ q9a.remaining := by
    rw [frameA_len]
    decide
  calc q9b = ⟨q9a.capacity, q9a.buf ++ frameA⟩ :=
        congrArg Prod.fst (push_slice_full q9a frameA h)
    _ = ⟨8192, frameA⟩ := rfl

/-- The second scenario push also fits, queueing both frames in order. -/
theorem q9c_eq : q9c = ⟨8192, frameA ++ frameB⟩ := by
  have e1 : q9b.remaining = 8192 - frameA.length := by
    rw [q9b_eq]
    simp only [RingBuffer.remaining]
  have h : frameB.length ≤ q9b.remaining := by
    rw [e1, frameB_len, frameA_len]
    decide
  have hstep : q9c = ⟨q9b.capacity, q9b.buf ++ frameB⟩ := by
    rw [q9c, push_slice_full q9b frameB h]
  rw [hstep, q9b_eq]

/-- After both pushes, 3192 of the 8192 slots remain free. -/
theorem q9c_rem : q9c.remaining = 3192 := by
  have e1 : q9c.remaining = 8192 - (frameA ++ frameB).length := by
    rw [q9c_eq]
    simp only [RingBuffer.remaining]
  rw [e1, List.length_append, frameA_len, frameB_len]

/-- The drained scenario queue keeps the tail of the queued frames. -/
theorem drain_buf (k : Nat) :
    (drainN q9c k).1 = ⟨8192, (frameA ++ frameB).drop k⟩ := by
  rw [q9c_eq, drainN_spec]

/-- Free space after the consumer drains `k` samples from the full scenario
queue. -/
theorem drain_rem (k : Nat) :
    ((drainN q9c k).1).remaining = 8192 - (5000 - k) := by
  have e1 : ((drainN q9c k).1).remaining =
      8192 - ((frameA ++ frameB).drop k).length := by
    rw [drain_buf k]
    rfl
  rw [e1, List.length_drop, List.length_append, frameA_len, frameB_len]

/-- C9 as stated is false: with 3000 and 2000 samples queued out of 8192, the
wait condition for the 4000-sample frame is already satisfied once 808 samples
have been drained — strictly fewer than the claimed 1192 — so the producer
does not keep waiting until 1192 samples have drained. -/
theorem claim9_counterexample :
    q9c.remaining = 3192
    ∧ frameC.length ≤ ((drainN q9c 808).1).remaining
    ∧ 808 < 1192 := by
  refine ⟨q9c_rem, ?_, by omega⟩
  rw [frameC_len, drain_rem]

/-- C9 amended: with a capacity-8192 queue starting empty, the 3000- and
2000-sample frames push without waiting; the 4000-sample frame finds only 3192
free slots, so the producer waits, and the wait condition becomes true exactly
once the consumer has drained at least 808 samples (not 1192); the push then
completes in one whole `push_slice` call and the samples of all three frames
sit in the queue in order. -/
theorem claim9_end_to_end_scenario :
    frameA.length ≤ q9a.remaining
    ∧ frameB.length ≤ q9b.remaining
    ∧ q9c.remaining = 3192
    ∧ q9c.remaining < frameC.length
    ∧ (∀ k : Nat, frameC.length ≤ ((drainN q9c k).1).remaining ↔ 808 ≤ k)
    ∧ (((drainN q9c 808).1).push_slice frameC).2 = frameC.length
    ∧ ((((drainN q9c 808).1).push_slice frameC).1).buf =
        frameA.drop 808 ++ frameB ++ frameC := by
  have hfit : frameC.length ≤ ((drainN q9c 808).1).remaining := by
    rw [frameC_len, drain_rem]
  have hbuf : ((drainN q9c 808).1).buf = frameA.drop 808 ++ frameB := by
    have e2 : ((drainN q9c 808).1).buf = (frameA ++ frameB).drop 808 := by
      rw [drain_buf 808]
    exact e2.trans (List.drop_append_of_le_length (by rw [frameA_len]; omega))
  have hp := push_slice_full ((drainN q9c 808).1) frameC hfit
  refine ⟨?_, ?_, q9c_rem, ?_, ?_, ?_, ?_⟩
  · rw [frameA_len]
    decide
  · have e1 : q9b.remaining = 8192 - frameA.length := by
      rw [q9b_eq]
      simp only [RingBuffer.remaining]
    rw [e1, frameB_len, frameA_len]
    decide
  · rw [q9c_rem, frameC_len]
    decide
  · intro k
    rw [frameC_len, drain_rem k]
    omega
  · exact congrArg Prod.snd hp
  · have e3 : ((((drainN q9c 808).1).push_slice frameC).1).buf =
        ((drainN q9c 808).1).buf ++ frameC :=
      congrArg (fun p => (Prod.fst p).buf) hp
    rw [e3, hbuf]

/-- Witness for C9: draining exactly 808 samples satisfies the wait condition
for the third frame. -/
theorem claim9_witness :
    frameC.length ≤ ((drainN q9c 808).1).remaining :=
  (claim9_end_to_end_scenario.2.2.2.2.1 808).mpr (by decide)

/-- C10 as stated is false for U16: with the device reporting the unsigned
16-bit format, `main` halts inside the format adapter while the resampler is
being configured — not while building the output stream. -/
theorem claim10_counterexample :
    main_startup SampleFormat.U16 true =
      StartupResult.panickedAtResampler ("ffmpeg resampler does not support u16")
    ∧ (main_startup SampleFormat.U16 true).at_stream_build = false :=
  ⟨rfl, rfl⟩

/-- C10 amended: a playback stream is only ever constructed when the device
format is F32, and then the shared queue is the `f32` ring buffer of fixed
capacity 8192; an I16 device format halts with a fatal error while building
the output stream, a U16 device format halts earlier, at resampler
configuration — in every non-F32 case the program halts before any playback
begins. -/
theorem claim10_stream_construction (fmt : SampleFormat) (r : Bool) :
    (∀ q : RingBuffer Float, main_startup fmt r = StartupResult.playing q →
      fmt = SampleFormat.F32 ∧ q = RingBuffer.new Float 8192)
    ∧ (fmt = SampleFormat.I16 → r = true →
      main_startup fmt r =
        StartupResult.panickedAtStreamBuild ("i16 output format unimplemented"))
    ∧ (fmt = SampleFormat.U16 →
      main_startup fmt r =
        StartupResult.panickedAtResampler ("ffmpeg resampler does not support u16"))
    ∧ main_startup SampleFormat.F32 true =
      StartupResult.playing (RingBuffer.new Float 8192) := by
  refine ⟨?_, ?_, ?_, rfl⟩
  · intro q hq
    cases fmt with
    | I16 =>
      cases r with
      | true => simp [main_startup, as_ffmpeg_sample] at hq
      | false => simp [main_startup, as_ffmpeg_sample] at hq
    | U16 =>
      cases r with
      | true => simp [main_startup, as_ffmpeg_sample] at hq
      | false => simp [main_startup, as_ffmpeg_sample] at hq
    | F32 =>
      cases r with
      | true =>
        simp only [main_startup, as_ffmpeg_sample, if_true] at hq
        cases hq
        exact ⟨rfl, rfl⟩
      | false => simp [main_startup, as_ffmpeg_sample] at hq
  · intro h1 h2
    subst h1
    subst h2
    rfl
  · intro h1
    subst h1
    cases r with
    | true => rfl
    | false => rfl

/-- Witness for C10: at the concrete formats, I16 panics at stream building
and only F32 reaches playback with the capacity-8192 queue. -/
theorem claim10_witness :
    main_startup SampleFormat.I16 true =
      StartupResult.panickedAtStreamBuild ("i16 output format unimplemented")
    ∧ main_startup SampleFormat.F32 true =
      StartupResult.playing (RingBuffer.new Float 8192) :=
  ⟨(claim10_stream_construction SampleFormat.I16 true).2.1 rfl rfl,
   (claim10_stream_construction SampleFormat.F32 true).2.2.2⟩

end PlayAudio
